import Mathlib

/-!
Verification of the OpenStress task scheduling and execution core.

The definitions below are a shallow embedding of the Go sources:
* `TaskM` embeds `TaskDetail` and its lifecycle from `src/pool/task.go`
  (`Start`, `executeTask`, `executeWithTimeout`, `retry`, `checkDependencies`),
  together with the alternative retry loop `executeWithRetry` from
  `src/pool/pool.go`.
* `PoolM` embeds the `Pool` from `src/OpenStress/pool/pool.go`
  (`NewPool`, `Submit`, `Pause`, `Resume`, `GetTaskStatus`).

Durations are modelled in abstract time units (the Go code's `time.Second`
is one unit), machine integers as `Int` with explicit wrapping where the
code relies on `int32` conversion, and the caller-supplied `Execute`
closure as a function from the invocation index to an optional error.
Status writes, `Execute` invocations and sleeps are recorded in an event
trace so that statements about "steps of the execution" can be made.
-/

namespace TaskM

/-- The six task states of `TaskStatus` in `src/pool/task.go`. -/
inductive TaskStatus where
  | Pending
  | Running
  | Completed
  | Failed
  | Cancelled
  | Timeout
  deriving DecidableEq, Repr

/-- The mutable fields of `TaskDetail` (src/pool/task.go) that the
lifecycle functions read or write.  A dependency is represented by its ID
together with the status its `Status` field holds when
`checkDependencies` reads it. -/
structure TaskState where
  status : TaskStatus
  retryCount : Int
  maxRetries : Int
  retryDelay : Nat
  timeout : Nat
  dependencies : List (String × TaskStatus)
  error : Option String
  deriving DecidableEq, Repr

/-- Observable steps of a task execution: an atomic store to `Status`,
an invocation of the `Execute` closure (tagged with its index), a
`time.Sleep`, an `atomic.AddInt32` on `RetryCount` (tagged with the new
value), and the single dependency scan done by `Start`. -/
inductive Event where
  | store : TaskStatus → Event
  | callExecute : Nat → Event
  | sleep : Nat → Event
  | incRetry : Int → Event
  | checkDeps : Event
  deriving DecidableEq, Repr

/-- Result of running a piece of the task lifecycle: the task state it
leaves behind, the trace of events it performed, and the Go return value
(`Except.ok` for a nil error). -/
structure RunResult where
  state : TaskState
  events : List Event
  result : Except String Unit
  deriving Repr

/-- Embedding of `TaskDetail.executeTask` (src/pool/task.go:219-234):
invoke `Execute`; on an error, store `Failed`, record the error in
`t.Error` and delegate to `TaskDetail.retry` (src/pool/task.go:254-267),
whose body is inlined here at its single call site to keep the recursion
structural: if `retryCount ≥ maxRetries`, return the retries-exceeded
error; otherwise increment `retryCount`, sleep for the task's fixed
`RetryDelay`, and re-run `executeTask`.  On success store `Completed`.
`exec i` is the error returned by the `i`-th invocation of the task's
`Execute` closure (counting all invocations of this task), `calls` is the
number of invocations performed so far, and `fuel` bounds the recursion
depth (any value larger than the remaining retry budget is enough; the Go
recursion is bounded by `maxRetries - retryCount`).  The standalone
`retry` below restates the inlined part; `executeTask_failed_step` proves
the two fit together exactly as in the Go code. -/
def executeTask (exec : Nat → Option String) : (fuel calls : Nat) → TaskState → RunResult
  | 0, _, t => ⟨t, [], Except.error "out of fuel"⟩
  | Nat.succ fuel, calls, t =>
    match exec calls with
    | some e =>
      let t1 : TaskState := { t with status := TaskStatus.Failed, error := some e }
      if t1.retryCount ≥ t1.maxRetries then
        ⟨t1, [Event.callExecute calls, Event.store TaskStatus.Failed],
          Except.error "exceeded maximum retry attempts"⟩
      else
        let t2 : TaskState := { t1 with retryCount := t1.retryCount + 1 }
        let r := executeTask exec fuel (calls + 1) t2
        ⟨r.state,
          Event.callExecute calls :: Event.store TaskStatus.Failed ::
            Event.incRetry t2.retryCount :: Event.sleep t1.retryDelay :: r.events,
          r.result⟩
    | none =>
      ⟨{ t with status := TaskStatus.Completed },
        [Event.callExecute calls, Event.store TaskStatus.Completed], Except.ok ()⟩

/-- Embedding of `TaskDetail.retry` (src/pool/task.go:254-267) as a
standalone function: if `retryCount ≥ maxRetries`, return the
retries-exceeded error; otherwise increment `retryCount`, sleep for the
task's fixed `RetryDelay`, and re-run `executeTask`. -/
def retry (exec : Nat → Option String) (fuel : Nat) (calls : Nat)
    (t : TaskState) : RunResult :=
  if t.retryCount ≥ t.maxRetries then
    ⟨t, [], Except.error "exceeded maximum retry attempts"⟩
  else
    let t1 : TaskState := { t with retryCount := t.retryCount + 1 }
    let r := executeTask exec fuel calls t1
    ⟨r.state, Event.incRetry t1.retryCount :: Event.sleep t.retryDelay :: r.events,
      r.result⟩

/-- Number of `Execute` invocations recorded in a trace. -/
def executeCalls (evs : List Event) : Nat :=
  (evs.filter fun e => match e with | Event.callExecute _ => true | _ => false).length

/-- The status held by the task's `Status` field after a trace of atomic
stores has been applied on top of an initial status: the last store wins. -/
def lastStore (init : TaskStatus) : List Event → TaskStatus
  | [] => init
  | Event.store s :: rest => lastStore s rest
  | _ :: rest => lastStore init rest

/-- The sleep durations recorded in a trace, in order. -/
def sleeps (evs : List Event) : List Nat :=
  evs.filterMap fun e => match e with | Event.sleep d => some d | _ => none

/-- The successive values the `RetryCount` field takes in a trace. -/
def retryIncrements (evs : List Event) : List Int :=
  evs.filterMap fun e => match e with | Event.incRetry v => some v | _ => none

/-- Number of dependency scans recorded in a trace. -/
def checkDepsCount (evs : List Event) : Nat :=
  (evs.filter fun e => match e with | Event.checkDeps => true | _ => false).length

/-- The kinds of events `executeTask`/`retry` can produce: `Execute`
invocations, stores of `Failed` or `Completed`, retry-count increments and
sleeps — in particular no dependency scan and no store of `Pending`,
`Running`, `Cancelled` or `Timeout`. -/
def execEvent : Event → Bool := fun e =>
  match e with
  | Event.store TaskStatus.Failed => true
  | Event.store TaskStatus.Completed => true
  | Event.callExecute _ => true
  | Event.incRetry _ => true
  | Event.sleep _ => true
  | _ => false

/-- Embedding of `TaskDetail.executeWithTimeout` (src/pool/task.go:237-251):
the attempt runs `executeTask` on a spawned goroutine and is raced against
`time.After(t.Timeout)`.  `timeoutFires` says whether the deadline elapsed
before the attempt's result was received on `done`; in that case the
`select` performs an unconditional store of `Timeout` and returns the
timeout error, while the abandoned goroutine keeps running and its
remaining events still happen.  `k` is the number of the attempt's events
that had already happened when the deadline fired (the interleaving is
chosen by the scheduler); the status left behind is the last store of the
interleaved trace. -/
def executeWithTimeout (exec : Nat → Option String) (fuel : Nat) (t : TaskState)
    (timeoutFires : Bool) (k : Nat) : RunResult :=
  let r := executeTask exec fuel 0 t
  if timeoutFires then
    let evs := r.events.take k ++ Event.store TaskStatus.Timeout :: r.events.drop k
    ⟨{ r.state with status := lastStore t.status evs }, evs, Except.error "task timed out"⟩
  else
    r

/-- Embedding of `TaskDetail.checkDependencies` (src/pool/task.go:299-307):
scan the dependency list once and fail on the first dependency whose
status is not `Completed`. -/
def checkDependencies : List (String × TaskStatus) → Except String Unit
  | [] => Except.ok ()
  | (depId, st) :: rest =>
    if st ≠ TaskStatus.Completed then
      Except.error ("dependency task " ++ depId ++ " is not completed")
    else checkDependencies rest

/-- Result of `Start`: the task state left behind, the event trace, the
returned Go error, and whether `StartTime` was recorded. -/
structure StartResult where
  state : TaskState
  events : List Event
  result : Except String Unit
  startTimeRecorded : Bool
  deriving Repr

/-- Embedding of `TaskDetail.Start` (src/pool/task.go:197-216): a
compare-and-swap moves `Pending` to `Running` (any other current status
fails with the not-pending error and mutates nothing); then `StartTime`
is recorded, dependencies are checked once (an unmet dependency stores
`Failed` and returns the dependency error without invoking `Execute`),
and execution is delegated to `executeWithTimeout` when `Timeout > 0`,
else to `executeTask`.  `timeoutFires` and `k` choose the schedule of the
timeout race, and are only consulted on the timeout path. -/
def Start (exec : Nat → Option String) (fuel : Nat) (timeoutFires : Bool) (k : Nat)
    (t : TaskState) : StartResult :=
  if t.status = TaskStatus.Pending then
    let t1 : TaskState := { t with status := TaskStatus.Running }
    match checkDependencies t1.dependencies with
    | Except.error e =>
      ⟨{ t1 with status := TaskStatus.Failed },
        [Event.store TaskStatus.Running, Event.checkDeps, Event.store TaskStatus.Failed],
        Except.error e, true⟩
    | Except.ok _ =>
      if t1.timeout > 0 then
        let r := executeWithTimeout exec fuel t1 timeoutFires k
        ⟨r.state, Event.store TaskStatus.Running :: Event.checkDeps :: r.events,
          r.result, true⟩
      else
        let r := executeTask exec fuel 0 t1
        ⟨r.state, Event.store TaskStatus.Running :: Event.checkDeps :: r.events,
          r.result, true⟩
  else
    ⟨t, [], Except.error "task is not in pending status", false⟩

/-- Embedding of `Task.executeWithRetry` (src/pool/pool.go:82-100), the
alternative retry loop: run `task.fn(threadID)`; on success stop; if the
local `retries` counter has reached `maxRetries`, return the last error;
otherwise increment `retries`, sleep `2^retries` seconds, and loop.
`fn threadID i` is the error of the invocation made when the `retries`
counter holds `i`.  Returns (number of invocations of `fn`, list of sleep
durations, Go return value).  `fuel` bounds the loop (any value above
`maxRetries + 1` is enough). -/
def executeWithRetry (fn : Int → Nat → Option String) (threadID : Int)
    (maxRetries : Nat) (fuel : Nat) (retries : Nat) : Nat × List Nat × Except String Unit :=
  match fuel with
  | 0 => (0, [], Except.error "out of fuel")
  | Nat.succ fuel =>
    match fn threadID retries with
    | none => (1, [], Except.ok ())
    | some e =>
      if retries ≥ maxRetries then
        (1, [], Except.error e)
      else
        let r := executeWithRetry fn threadID maxRetries fuel (retries + 1)
        (1 + r.1, 2 ^ (retries + 1) :: r.2.1, r.2.2)

end TaskM

namespace PoolM

/-- Go `int32` conversion: wrap an integer into `[-2^31, 2^31)`. -/
def int32wrap (n : Int) : Int := (n + 2 ^ 31) % 2 ^ 32 - 2 ^ 31

/-- Modelled from the pinned dependency `github.com/panjf2000/ants/v2
v2.10.0` (a third-party library, not part of this repository):
`ants.NewPool(size)` with default options replaces a nonpositive size by
`-1` (an unbounded pool) and returns no error. -/
structure AntsPool where
  capacity : Int
  deriving DecidableEq, Repr

/-- Modelled from the pinned dependency `github.com/panjf2000/ants/v2
v2.10.0`: construction with default options never fails; a nonpositive
requested size yields the unbounded capacity `-1`. -/
def antsNewPool (size : Int) : Except String AntsPool :=
  Except.ok ⟨if size ≤ 0 then -1 else size⟩

/-- The fields of `Pool` (src/OpenStress/pool/pool.go:25-32) that the
embedded operations read or write.  `isPaused`/`shutdownFlag` model the
`int32` flags (0/1). -/
structure Pool where
  maxWorkers : Int
  taskPool : AntsPool
  isPaused : Bool
  shutdownFlag : Bool
  threadIDCounter : Int
  deriving DecidableEq, Repr

/-- Embedding of `NewPool` (src/OpenStress/pool/pool.go:35-54): build the
ants pool; if that errs, return nil (`none`); otherwise the pool with
`maxWorkers = int32(maxWorkers)`, a zero thread-ID counter, and both
control flags clear. -/
def NewPool (maxWorkers : Int) : Option Pool :=
  match antsNewPool maxWorkers with
  | Except.error _ => none
  | Except.ok tp =>
    some { maxWorkers := int32wrap maxWorkers, taskPool := tp, isPaused := false,
           shutdownFlag := false, threadIDCounter := 0 }

/-- Behaviour of one invocation of a caller-supplied closure: it either
returns normally or panics. -/
inductive ExecBehavior where
  | normal
  | panics
  deriving DecidableEq, Repr

/-- Observable outcome of the ants pool running the closure `Submit`
built around a task: how many times the caller's `fn` was invoked, whether
a panic escaped the closure (terminating the ants worker), whether a panic
was recovered and logged, and how many retries were performed. -/
structure RunOutcome where
  fnInvocations : Nat
  panicPropagated : Bool
  panicLogged : Bool
  retriesPerformed : Nat
  deriving DecidableEq, Repr

/-- The closure `Submit` hands to `taskPool.Submit`
(src/OpenStress/pool/pool.go:129-139): a `defer`/`recover` around a single
call of `task.fn()`, which is `fn(threadID)`.  A panic is recovered and
logged as an error; the closure returns normally either way, and nothing
is re-run. -/
def runSubmitted (fn : Int → ExecBehavior) (threadID : Int) : RunOutcome :=
  match fn threadID with
  | ExecBehavior.normal =>
    { fnInvocations := 1, panicPropagated := false, panicLogged := false,
      retriesPerformed := 0 }
  | ExecBehavior.panics =>
    { fnInvocations := 1, panicPropagated := false, panicLogged := true,
      retriesPerformed := 0 }

/-- The `Task` record `Submit` constructs (src/OpenStress/pool/pool.go:14-22,
119-126); the `fn` closure is represented by the `threadID` it captures
together with the caller's `fn`, kept separately in `SubmitResult`. -/
structure PTask where
  ID : String
  priority : Int
  retries : Int
  maxRetries : Int
  timeout : Int
  deriving DecidableEq, Repr

/-- Everything `Pool.Submit` produces: the updated pool, the constructed
task record, the thread ID handed to the closure, and the execution the
ants pool performs (`none` when the ants pool rejected the submission,
which with default options happens only after `Release`, i.e. after
`Shutdown`). -/
structure SubmitResult where
  pool : Pool
  task : PTask
  threadID : Int
  run : Option RunOutcome
  deriving DecidableEq, Repr

/-- Embedding of `Pool.Submit` (src/OpenStress/pool/pool.go:113-144):
atomically bump `threadIDCounter`, then reduce it modulo `maxWorkers` with
Go's truncated `%` — which raises an integer-divide-by-zero runtime panic
on the caller's goroutine when `maxWorkers = 0` (a pool `NewPool 0`
builds), so in that case no task record is ever built and `fn` is never
invoked: `Except.error` carries the pool state at the panic, the counter
increment having already happened.  Otherwise build the task record with
`retries = 0` and `maxRetries = 1` and hand the recover-wrapped closure
straight to the ants pool.  `Submit` never reads `isPaused`: the closure
is submitted unconditionally, and the ants pool runs it regardless of the
pause flag. -/
def Submit (p : Pool) (fn : Int → ExecBehavior) (priority : Int) (taskID : String)
    (timeout : Int) : Except Pool SubmitResult :=
  let counter := int32wrap (p.threadIDCounter + 1)
  if p.maxWorkers = 0 then
    Except.error { p with threadIDCounter := counter }
  else
    let threadID := Int.tmod counter p.maxWorkers
    let task : PTask :=
      { ID := taskID, priority := priority, retries := 0, maxRetries := 1,
        timeout := timeout }
    Except.ok
      { pool := { p with threadIDCounter := counter },
        task := task,
        threadID := threadID,
        run := if p.shutdownFlag then none else some (runSubmitted fn threadID) }

/-- Embedding of `Pool.Pause` (src/OpenStress/pool/pool.go:155-159):
store 1 into `isPaused`. -/
def Pause (p : Pool) : Pool := { p with isPaused := true }

/-- Embedding of `Pool.Resume` (src/OpenStress/pool/pool.go:162-166):
store 0 into `isPaused`. -/
def Resume (p : Pool) : Pool := { p with isPaused := false }

/-- Embedding of `Pool.Shutdown` (src/OpenStress/pool/pool.go:147-152):
set `shutdownFlag` and release the ants pool. -/
def Shutdown (p : Pool) : Pool := { p with shutdownFlag := true }

/-- Embedding of `Pool.GetTaskStatus` (src/OpenStress/pool/pool.go:176-181):
log, then unconditionally return `(nil, error "task not found")`. -/
def GetTaskStatus (p : Pool) (taskID : String) : Option PTask × Option String :=
  (none, some "task not found")

/-- The pool `NewPool 4` builds: four workers, fresh counters, both control
flags clear.  Used as the concrete pool of the scenarios below. -/
def pool4 : Pool :=
  { maxWorkers := 4, taskPool := { capacity := 4 }, isPaused := false,
    shutdownFlag := false, threadIDCounter := 0 }

/-- The run outcome of a single recovered invocation: `logged` says whether
a recovered panic was logged. -/
def onceOutcome (logged : Bool) : RunOutcome :=
  { fnInvocations := 1, panicPropagated := false, panicLogged := logged,
    retriesPerformed := 0 }

end PoolM

namespace PoolM

/-- C4 counterexample: constructing a pool with `maxWorkers = 0` does not
fail.  `NewPool` has no error return, and with ants v2.10.0 the underlying
pool is created with unbounded capacity instead of erroring, so `NewPool 0`
yields a pool (with `maxWorkers = 0`), refuting the claim that construction
returns an error for every `n ≤ 0`. -/
theorem newPool_nonpositive_counterexample :
    (NewPool 0).isSome = true ∧
    NewPool 0 = some
      { maxWorkers := 0, taskPool := { capacity := -1 }, isPaused := false,
        shutdownFlag := false, threadIDCounter := 0 } := by
  constructor
  · rfl
  · rfl

/-- C4 amended: `NewPool` never fails: for every `n` (including `n ≤ 0`) it
returns a pool whose `maxWorkers` is `int32(n)` — which is `n` itself
whenever `n` fits in `int32` — and for `n ≤ 0` the underlying ants pool is
created with the unbounded capacity `-1` rather than an error, while for
`n > 0` its capacity is `n`. -/
theorem newPool_total_amended :
    ∀ n : Int, ∃ p : Pool, NewPool n = some p ∧ p.maxWorkers = int32wrap n ∧
      (-(2 ^ 31) ≤ n → n < 2 ^ 31 → p.maxWorkers = n) ∧
      (n ≤ 0 → p.taskPool.capacity = -1) ∧
      (0 < n → p.taskPool.capacity = n) := by
  intro n
  refine ⟨{ maxWorkers := int32wrap n, taskPool := { capacity := if n ≤ 0 then -1 else n },
            isPaused := false, shutdownFlag := false, threadIDCounter := 0 },
    rfl, rfl, ?_, ?_, ?_⟩
  · intro h1 h2
    show (n + 2 ^ 31) % 2 ^ 32 - 2 ^ 31 = n
    omega
  · intro h
    show (if n ≤ 0 then (-1 : Int) else n) = -1
    simp [h]
  · intro h
    have hn : ¬ n ≤ 0 := by omega
    show (if n ≤ 0 then (-1 : Int) else n) = n
    simp [hn]

/-- C4 amended, witness: at `n = 0` construction succeeds with
`maxWorkers = 0` and unbounded ants capacity; at `n = 4` it succeeds with
`maxWorkers = 4` and ants capacity 4. -/
theorem newPool_total_amended_witness :
    (∃ p : Pool, NewPool 0 = some p ∧ p.maxWorkers = 0 ∧ p.taskPool.capacity = -1) ∧
    (∃ p : Pool, NewPool 4 = some p ∧ p.maxWorkers = 4 ∧ p.taskPool.capacity = 4) := by
  constructor
  · obtain ⟨p, h1, h2, h3, h4, h5⟩ := newPool_total_amended 0
    exact ⟨p, h1, by rw [h2]; decide, h4 (by decide)⟩
  · obtain ⟨p, h1, h2, h3, h4, h5⟩ := newPool_total_amended 4
    exact ⟨p, h1, h3 (by decide) (by decide), h5 (by decide)⟩

/-- C6 (evaluating the code at the failing input): take the pool built by
`NewPool 4`, call `Pause` — its `isPaused` flag is now set — and submit a
task.  `Submit` never consults `isPaused`: it returns successfully (no
divide-by-zero on this four-worker pool) and the wrapped closure is handed
to the ants pool, which runs it (the caller's `fn` is invoked once) while
the pool is still paused — see the `isPaused := true` in the resulting
pool state — and before any `Resume`.  This contradicts the claim (and
`Pause`'s own doc comment) that no task submitted while paused begins
executing until `Resume` is called. -/
theorem paused_submit_executes :
    (Pause ((NewPool 4).getD pool4)).isPaused = true ∧
    Submit (Pause ((NewPool 4).getD pool4)) (fun _ => ExecBehavior.normal) 0 "t1" 0 =
      Except.ok
        { pool := { maxWorkers := 4, taskPool := { capacity := 4 }, isPaused := true,
                    shutdownFlag := false, threadIDCounter := 1 },
          task := { ID := "t1", priority := 0, retries := 0, maxRetries := 1,
                    timeout := 0 },
          threadID := 1,
          run := some (onceOutcome false) } := by
  exact ⟨rfl, rfl⟩

/-- C7 counterexample: a task whose execute closure panics on every
invocation, submitted to a fresh four-worker pool.  Although the
constructed task has `retries = 0 < maxRetries = 1`, the execution invokes
the closure exactly once and performs no retry: the recovered panic is
only logged (`run = some (onceOutcome true)`), it is not converted into an
attempt failure feeding any retry machinery. -/
theorem panic_no_retry_counterexample :
    Submit pool4 (fun _ => ExecBehavior.panics) 0 "t" 0 =
      Except.ok
        { pool := { maxWorkers := 4, taskPool := { capacity := 4 }, isPaused := false,
                    shutdownFlag := false, threadIDCounter := 1 },
          task := { ID := "t", priority := 0, retries := 0, maxRetries := 1,
                    timeout := 0 },
          threadID := 1,
          run := some (onceOutcome true) } := by
  rfl

/-- C7 amended: a panic in a caller-supplied execute closure is caught at
the attempt boundary by the deferred `recover` and logged, so it never
propagates out of the submitted closure (the ants worker survives); but it
is not converted into a retryable attempt failure: the closure invokes the
caller's `fn` exactly once and performs no retry, whatever `fn` does. -/
theorem panic_recovered_amended :
    ∀ (fn : Int → ExecBehavior) (threadID : Int),
      (runSubmitted fn threadID).panicPropagated = false ∧
      (runSubmitted fn threadID).fnInvocations = 1 ∧
      (runSubmitted fn threadID).retriesPerformed = 0 ∧
      (fn threadID = ExecBehavior.panics →
        (runSubmitted fn threadID).panicLogged = true) := by
  intro fn threadID
  cases h : fn threadID <;> simp [runSubmitted, h]

/-- C7 amended, witness: for the always-panicking closure at thread 0, the
panic does not propagate, the closure is invoked once, no retry happens and
the panic is logged. -/
theorem panic_recovered_amended_witness :
    (runSubmitted (fun _ => ExecBehavior.panics) 0).panicPropagated = false ∧
    (runSubmitted (fun _ => ExecBehavior.panics) 0).fnInvocations = 1 ∧
    (runSubmitted (fun _ => ExecBehavior.panics) 0).retriesPerformed = 0 ∧
    (runSubmitted (fun _ => ExecBehavior.panics) 0).panicLogged = true :=
  ⟨(panic_recovered_amended (fun _ => ExecBehavior.panics) 0).1,
   (panic_recovered_amended (fun _ => ExecBehavior.panics) 0).2.1,
   (panic_recovered_amended (fun _ => ExecBehavior.panics) 0).2.2.1,
   (panic_recovered_amended (fun _ => ExecBehavior.panics) 0).2.2.2 rfl⟩

/-- C9: on a pool with `maxWorkers = 0` (reachable via `NewPool 0`),
`Submit` panics with Go's integer divide by zero before any task is built,
so no task record exists and `fn` is never invoked.  On every other pool,
the task `Submit` builds has `maxRetries` fixed at 1 and `retries` 0;
unless the pool has been shut down, the closure is handed directly to the
ants pool, whose run invokes the caller's `fn` exactly once with no retry
and no escaped panic (so no timeout race and no re-execution); and neither
the `priority` nor the `timeout` argument has any effect on the execution:
submitting with any other priority and timeout yields the same pool state,
thread ID and run, the two values landing only in the stored task
record. -/
theorem submit_fixed_once :
    ∀ (p : Pool) (fn : Int → ExecBehavior) (priority priority2 : Int)
      (taskID : String) (timeout timeout2 : Int),
      (p.maxWorkers = 0 →
        Submit p fn priority taskID timeout =
          Except.error { p with threadIDCounter := int32wrap (p.threadIDCounter + 1) }) ∧
      (p.maxWorkers ≠ 0 →
        ∃ s, Submit p fn priority taskID timeout = Except.ok s ∧
          s.task.maxRetries = 1 ∧ s.task.retries = 0 ∧
          (p.shutdownFlag = false → s.run = some (runSubmitted fn s.threadID)) ∧
          (∀ o, s.run = some o →
            o.fnInvocations = 1 ∧ o.retriesPerformed = 0 ∧ o.panicPropagated = false) ∧
          Submit p fn priority2 taskID timeout2 =
            Except.ok { s with task :=
              { s.task with priority := priority2, timeout := timeout2 } }) := by
  intro p fn priority priority2 taskID timeout timeout2
  constructor
  · intro h0
    simp [Submit, h0]
  · intro hne
    refine ⟨⟨{ p with threadIDCounter := int32wrap (p.threadIDCounter + 1) },
        ⟨taskID, priority, 0, 1, timeout⟩,
        Int.tmod (int32wrap (p.threadIDCounter + 1)) p.maxWorkers,
        if p.shutdownFlag then none
          else some (runSubmitted fn
            (Int.tmod (int32wrap (p.threadIDCounter + 1)) p.maxWorkers))⟩,
      ?_, rfl, rfl, ?_, ?_, ?_⟩
    · simp [Submit, hne]
    · intro h
      simp [h]
    · intro o ho
      by_cases h : p.shutdownFlag
      · simp [h] at ho
      · simp [h] at ho
        cases h2 : fn (Int.tmod (int32wrap (p.threadIDCounter + 1)) p.maxWorkers) <;>
          rw [runSubmitted, h2] at ho <;> simp at ho <;> simp [← ho]
    · simp [Submit, hne]

/-- C9 witness: on the concrete four-worker pool (not shut down) the
submission succeeds with `maxRetries = 1` and `retries = 0`, and on the
concrete pool `NewPool 0` builds, `Submit` panics (integer divide by zero)
before building any task. -/
theorem submit_fixed_once_witness :
    (∃ s, Submit pool4 (fun _ => ExecBehavior.normal) 1 "a" 7 = Except.ok s ∧
      s.task.maxRetries = 1 ∧ s.task.retries = 0) ∧
    Submit { maxWorkers := 0, taskPool := { capacity := -1 }, isPaused := false,
             shutdownFlag := false, threadIDCounter := 0 }
        (fun _ => ExecBehavior.normal) 1 "a" 7 =
      Except.error { maxWorkers := 0, taskPool := { capacity := -1 }, isPaused := false,
                     shutdownFlag := false, threadIDCounter := 1 } := by
  constructor
  · obtain ⟨s, hs, h1, h2, _⟩ :=
      (submit_fixed_once pool4 (fun _ => ExecBehavior.normal) 1 2 "a" 7 8).2 (by decide)
    exact ⟨s, hs, h1, h2⟩
  · exact (submit_fixed_once
      { maxWorkers := 0, taskPool := { capacity := -1 }, isPaused := false,
        shutdownFlag := false, threadIDCounter := 0 }
      (fun _ => ExecBehavior.normal) 1 2 "a" 7 8).1 rfl

/-- C10: `GetTaskStatus` returns a nil task and the "task not found" error
for every task ID on every pool — including the ID of a task that was just
successfully submitted to the pool; it never returns a task's status. -/
theorem getTaskStatus_not_found :
    ∀ (p : Pool) (taskID : String) (fn : Int → ExecBehavior)
      (priority timeout : Int) (s : SubmitResult),
      GetTaskStatus p taskID = (none, some "task not found") ∧
      (Submit p fn priority taskID timeout = Except.ok s →
        GetTaskStatus s.pool s.task.ID = (none, some "task not found")) := by
  intro p taskID fn priority timeout s
  exact ⟨rfl, fun _ => rfl⟩

/-- C10 witness: on a fresh pool, and on the pool state left by a concrete
successful submission when asked for the just-submitted ID, the lookup
still returns the not-found error. -/
theorem getTaskStatus_not_found_witness :
    GetTaskStatus pool4 "x" = (none, some "task not found") ∧
    GetTaskStatus { maxWorkers := 4, taskPool := { capacity := 4 }, isPaused := false,
                    shutdownFlag := false, threadIDCounter := 1 } "t1" =
      (none, some "task not found") := by
  refine ⟨(getTaskStatus_not_found pool4 "x" (fun _ => ExecBehavior.normal) 0 0
      ⟨pool4, ⟨"x", 0, 0, 1, 0⟩, 0, none⟩).1, ?_⟩
  exact (getTaskStatus_not_found pool4 "t1" (fun _ => ExecBehavior.normal) 0 0
      ⟨{ maxWorkers := 4, taskPool := { capacity := 4 }, isPaused := false,
         shutdownFlag := false, threadIDCounter := 1 },
        ⟨"t1", 0, 0, 1, 0⟩, 1, some (onceOutcome false)⟩).2 rfl

end PoolM

namespace TaskM

/-- The inlined retry step of `executeTask` agrees with the standalone
`retry`: a failing invocation stores `Failed`, records the error, and
continues exactly as `retry` does on the failed state. -/
theorem executeTask_failed_step (exec : Nat → Option String) (fuel calls : Nat)
    (t : TaskState) (e : String) (he : exec calls = some e) :
    executeTask exec (fuel + 1) calls t =
      ⟨(retry exec fuel (calls + 1)
          { t with status := TaskStatus.Failed, error := some e }).state,
       Event.callExecute calls :: Event.store TaskStatus.Failed ::
         (retry exec fuel (calls + 1)
           { t with status := TaskStatus.Failed, error := some e }).events,
       (retry exec fuel (calls + 1)
         { t with status := TaskStatus.Failed, error := some e }).result⟩ := by
  simp only [executeTask, retry, he]
  by_cases h : t.retryCount ≥ t.maxRetries
  · simp [h]
  · simp [h]

/-- Every event `executeTask` records is an `Execute` invocation, a store
of `Failed` or `Completed`, a retry-count increment or a sleep. -/
theorem executeTask_events_execEvent (exec : Nat → Option String) :
    ∀ (fuel calls : Nat) (t : TaskState),
      ∀ e ∈ (executeTask exec fuel calls t).events, execEvent e = true := by
  intro fuel
  induction fuel with
  | zero =>
    intro calls t e he
    simp [executeTask] at he
  | succ f ih =>
    intro calls t e he
    cases hc : exec calls with
    | none =>
      simp [executeTask, hc] at he
      rcases he with h | h <;> simp [h, execEvent]
    | some s =>
      simp only [executeTask, hc] at he
      split at he
      · simp at he
        rcases he with h | h <;> simp [h, execEvent]
      · simp at he
        rcases he with h | h | h | h | h
        · simp [h, execEvent]
        · simp [h, execEvent]
        · simp [h, execEvent]
        · simp [h, execEvent]
        · exact ih (calls + 1) _ e h

/-- `lastStore` over a concatenation: the second part is applied on top of
whatever the first part left. -/
theorem lastStore_append (ys : List Event) :
    ∀ (xs : List Event) (init : TaskStatus),
      lastStore init (xs ++ ys) = lastStore (lastStore init xs) ys := by
  intro xs
  induction xs with
  | nil => intro init; rfl
  | cons e rest ih =>
    intro init
    cases e <;> simp [lastStore, ih]

/-- A trace without stores leaves the status unchanged. -/
theorem lastStore_of_no_store :
    ∀ (l : List Event) (init : TaskStatus), (∀ s, Event.store s ∉ l) →
      lastStore init l = init := by
  intro l
  induction l with
  | nil => intro init _; rfl
  | cons e rest ih =>
    intro init h
    cases e with
    | store s => exact absurd (List.mem_cons_self _ _) (h s)
    | callExecute i => exact ih init fun s hs => h s (List.mem_cons_of_mem _ hs)
    | sleep d => exact ih init fun s hs => h s (List.mem_cons_of_mem _ hs)
    | incRetry v => exact ih init fun s hs => h s (List.mem_cons_of_mem _ hs)
    | checkDeps => exact ih init fun s hs => h s (List.mem_cons_of_mem _ hs)

/-- If a trace consists of execution events only and contains at least one
store, the resulting status is `Completed` or `Failed`, whatever the
initial status was. -/
theorem lastStore_exec :
    ∀ (l : List Event) (init : TaskStatus), (∀ e ∈ l, execEvent e = true) →
      (∃ s, Event.store s ∈ l) →
      lastStore init l = TaskStatus.Completed ∨ lastStore init l = TaskStatus.Failed := by
  intro l
  induction l with
  | nil =>
    intro init _ hs
    obtain ⟨s, hs⟩ := hs
    simp at hs
  | cons e rest ih =>
    intro init hall hs
    cases e with
    | store s =>
      have hst : execEvent (Event.store s) = true := hall _ (List.mem_cons_self _ _)
      have hrest : ∀ e ∈ rest, execEvent e = true :=
        fun e he => hall e (List.mem_cons_of_mem _ he)
      by_cases hr : ∃ s2, Event.store s2 ∈ rest
      · simpa [lastStore] using ih s hrest hr
      · push_neg at hr
        have : lastStore s rest = s := lastStore_of_no_store rest s hr
        cases s <;> simp_all [lastStore, execEvent]
    | callExecute i =>
      refine ih init (fun e he => hall e (List.mem_cons_of_mem _ he)) ?_
      obtain ⟨s, hs⟩ := hs
      rcases List.mem_cons.mp hs with h | h
      · exact absurd h (by simp)
      · exact ⟨s, h⟩
    | sleep d =>
      refine ih init (fun e he => hall e (List.mem_cons_of_mem _ he)) ?_
      obtain ⟨s, hs⟩ := hs
      rcases List.mem_cons.mp hs with h | h
      · exact absurd h (by simp)
      · exact ⟨s, h⟩
    | incRetry v =>
      refine ih init (fun e he => hall e (List.mem_cons_of_mem _ he)) ?_
      obtain ⟨s, hs⟩ := hs
      rcases List.mem_cons.mp hs with h | h
      · exact absurd h (by simp)
      · exact ⟨s, h⟩
    | checkDeps =>
      refine ih init (fun e he => hall e (List.mem_cons_of_mem _ he)) ?_
      obtain ⟨s, hs⟩ := hs
      rcases List.mem_cons.mp hs with h | h
      · exact absurd h (by simp)
      · exact ⟨s, h⟩

/-- A trace of execution events records no dependency scan. -/
theorem checkDepsCount_of_execEvent :
    ∀ l : List Event, (∀ e ∈ l, execEvent e = true) → checkDepsCount l = 0 := by
  intro l
  induction l with
  | nil => intro _; rfl
  | cons e rest ih =>
    intro h
    have he : execEvent e = true := h e (List.mem_cons_self _ _)
    have hrest := ih fun x hx => h x (List.mem_cons_of_mem _ hx)
    cases e <;> simp_all [checkDepsCount, execEvent]

/-- Dependency-scan counts add over concatenation. -/
theorem checkDepsCount_append (a b : List Event) :
    checkDepsCount (a ++ b) = checkDepsCount a + checkDepsCount b := by
  simp [checkDepsCount, List.filter_append]

/-- `checkDependencies` fails exactly when some dependency is not
`Completed`, and every failure message names a dependency. -/
theorem checkDependencies_error_iff :
    ∀ deps : List (String × TaskStatus),
      ((∃ e, checkDependencies deps = Except.error e) ↔
        ∃ pr ∈ deps, pr.2 ≠ TaskStatus.Completed) ∧
      (∀ e, checkDependencies deps = Except.error e →
        ∃ d, e = "dependency task " ++ d ++ " is not completed") := by
  intro deps
  induction deps with
  | nil =>
    constructor
    · constructor
      · intro h
        obtain ⟨e, he⟩ := h
        simp [checkDependencies] at he
      · intro h
        obtain ⟨pr, hpr, _⟩ := h
        simp at hpr
    · intro e he
      simp [checkDependencies] at he
  | cons hd rest ih =>
    obtain ⟨d, st⟩ := hd
    by_cases hst : st = TaskStatus.Completed
    · constructor
      · constructor
        · intro h
          obtain ⟨e, he⟩ := h
          simp [checkDependencies, hst] at he
          obtain ⟨pr, hpr, h2⟩ := (ih.1).mp ⟨e, he⟩
          exact ⟨pr, List.mem_cons_of_mem _ hpr, h2⟩
        · intro h
          obtain ⟨pr, hpr, h2⟩ := h
          rcases List.mem_cons.mp hpr with h3 | h3
          · rw [h3] at h2
            simp [hst] at h2
          · obtain ⟨e, he⟩ := (ih.1).mpr ⟨pr, h3, h2⟩
            exact ⟨e, by simp [checkDependencies, hst, he]⟩
      · intro e he
        simp [checkDependencies, hst] at he
        exact ih.2 e he
    · constructor
      · constructor
        · intro _
          exact ⟨(d, st), List.mem_cons_self _ _, hst⟩
        · intro _
          exact ⟨"dependency task " ++ d ++ " is not completed", by
            simp [checkDependencies, hst]⟩
      · intro e he
        simp [checkDependencies, hst] at he
        exact ⟨d, he.symm⟩

/-- `retryCount` is bounded by `maxRetries` throughout `executeTask`: the
final value stays within the bound, never decreases, `maxRetries` is never
modified, and every value the counter takes along the trace is within the
bound. -/
theorem executeTask_retryCount_aux (exec : Nat → Option String) :
    ∀ (fuel calls : Nat) (t : TaskState), t.retryCount ≤ t.maxRetries →
      (executeTask exec fuel calls t).state.retryCount ≤ t.maxRetries ∧
      t.retryCount ≤ (executeTask exec fuel calls t).state.retryCount ∧
      (executeTask exec fuel calls t).state.maxRetries = t.maxRetries ∧
      ∀ v ∈ retryIncrements (executeTask exec fuel calls t).events, v ≤ t.maxRetries := by
  intro fuel
  induction fuel with
  | zero =>
    intro calls t h
    simp [executeTask, retryIncrements]
    exact h
  | succ f ih =>
    intro calls t h
    cases hc : exec calls with
    | none =>
      simp [executeTask, hc, retryIncrements]
      exact h
    | some s =>
      by_cases hge : t.retryCount ≥ t.maxRetries
      · simp [executeTask, hc, hge, retryIncrements]
        exact h
      · have hlt : t.retryCount < t.maxRetries := lt_of_not_ge hge
        obtain ⟨ih1, ih2, ih3, ih4⟩ := ih (calls + 1)
          ⟨TaskStatus.Failed, t.retryCount + 1, t.maxRetries, t.retryDelay,
            t.timeout, t.dependencies, some s⟩ (by omega : (t.retryCount + 1 : Int) ≤ t.maxRetries)
        simp only [executeTask, hc]
        rw [if_neg hge]
        refine ⟨ih1, ?_, ih3, ?_⟩
        · have hstep : t.retryCount ≤ t.retryCount + 1 := by omega
          exact le_trans hstep ih2
        · intro v hv
          simp only [retryIncrements, List.filterMap_cons] at hv
          simp at hv
          rcases hv with h5 | h5
          · omega
          · exact ih4 v (by simpa [retryIncrements] using h5)

/-- C2: a task whose `Execute` fails on every invocation, with
`maxRetries = 3` and a fresh `retryCount` of 0, is attempted exactly 4
times in total (1 initial + 3 retries), finishes with status `Failed` and
the 4th attempt's error recorded in `Error`, and the run returns the
retries-exceeded error; the alternative retry loop `executeWithRetry` with
`maxRetries = 3` likewise invokes the task function exactly 4 times and
returns the final attempt's error. -/
theorem retry_exhaustion_four_attempts :
    ∀ (exec : Nat → Option String) (t : TaskState) (fuel : Nat),
      (∀ i, (exec i).isSome) → t.retryCount = 0 → t.maxRetries = 3 → 4 ≤ fuel →
      (executeCalls (executeTask exec fuel 0 t).events = 4 ∧
       (executeTask exec fuel 0 t).state.status = TaskStatus.Failed ∧
       (executeTask exec fuel 0 t).state.error = exec 3 ∧
       (executeTask exec fuel 0 t).result =
         Except.error "exceeded maximum retry attempts") ∧
      (∀ (fn : Int → Nat → Option String) (threadID : Int),
        (∀ i, (fn threadID i).isSome) →
        (executeWithRetry fn threadID 3 fuel 0).1 = 4 ∧
        ∃ msg, fn threadID 3 = some msg ∧
          (executeWithRetry fn threadID 3 fuel 0).2.2 = Except.error msg) := by
  intro exec t fuel hfail hrc hmax hfuel
  obtain ⟨f, rfl⟩ : ∃ f, fuel = f + 4 := ⟨fuel - 4, by omega⟩
  obtain ⟨e0, h0⟩ := Option.isSome_iff_exists.mp (hfail 0)
  obtain ⟨e1, h1⟩ := Option.isSome_iff_exists.mp (hfail 1)
  obtain ⟨e2, h2⟩ := Option.isSome_iff_exists.mp (hfail 2)
  obtain ⟨e3, h3⟩ := Option.isSome_iff_exists.mp (hfail 3)
  constructor
  · simp [executeTask, executeCalls, h0, h1, h2, h3, hrc, hmax]
  · intro fn threadID hfn
    obtain ⟨g0, hg0⟩ := Option.isSome_iff_exists.mp (hfn 0)
    obtain ⟨g1, hg1⟩ := Option.isSome_iff_exists.mp (hfn 1)
    obtain ⟨g2, hg2⟩ := Option.isSome_iff_exists.mp (hfn 2)
    obtain ⟨g3, hg3⟩ := Option.isSome_iff_exists.mp (hfn 3)
    refine ⟨?_, g3, hg3, ?_⟩
    · simp [executeWithRetry, hg0, hg1, hg2, hg3]
    · simp [executeWithRetry, hg0, hg1, hg2, hg3]

/-- C2 witness: a concrete always-failing Execute with maxRetries 3 makes
exactly 4 attempts, ends Failed with the last error recorded, and the
alternative loop behaves the same. -/
theorem retry_exhaustion_four_attempts_witness :
    (executeCalls (executeTask (fun _ => some "boom") 4 0
        ⟨TaskStatus.Running, 0, 3, 1, 0, [], none⟩).events = 4 ∧
     (executeTask (fun _ => some "boom") 4 0
        ⟨TaskStatus.Running, 0, 3, 1, 0, [], none⟩).state.status = TaskStatus.Failed) ∧
    (executeWithRetry (fun _ _ => some "boom") 7 3 4 0).1 = 4 := by
  have h := retry_exhaustion_four_attempts (fun _ => some "boom")
    ⟨TaskStatus.Running, 0, 3, 1, 0, [], none⟩ 4 (fun i => rfl) rfl rfl (by omega)
  exact ⟨⟨h.1.1, h.1.2.1⟩, (h.2 (fun _ _ => some "boom") 7 (fun i => rfl)).1⟩

/-- C8: throughout any run of the task's execute/retry loop that starts
with `retryCount ≤ maxRetries`, the invariant `retryCount ≤ maxRetries`
holds at all times: the final value is within the bound, every value the
counter takes along the trace is within the bound, and the counter never
decreases; moreover a task whose `retryCount` has reached `maxRetries` is
never retried again — `retry` returns at once with the retries-exceeded
error, recording no event at all. -/
theorem retryCount_le_maxRetries :
    ∀ (exec : Nat → Option String) (fuel calls : Nat) (t : TaskState),
      t.retryCount ≤ t.maxRetries →
      (executeTask exec fuel calls t).state.retryCount ≤ t.maxRetries ∧
      t.retryCount ≤ (executeTask exec fuel calls t).state.retryCount ∧
      (∀ v ∈ retryIncrements (executeTask exec fuel calls t).events, v ≤ t.maxRetries) ∧
      (t.retryCount = t.maxRetries →
        retry exec fuel calls t = ⟨t, [], Except.error "exceeded maximum retry attempts"⟩) := by
  intro exec fuel calls t h
  obtain ⟨h1, h2, h3, h4⟩ := executeTask_retryCount_aux exec fuel calls t h
  refine ⟨h1, h2, h4, ?_⟩
  intro heq
  have hge : t.retryCount ≥ t.maxRetries := by omega
  simp [retry, hge]

/-- C8 witness: a concrete task at the cap (retryCount = maxRetries = 3)
with an always-failing Execute keeps the bound, and `retry` refuses to run
it again. -/
theorem retryCount_le_maxRetries_witness :
    (executeTask (fun _ => some "e") 5 0
      ⟨TaskStatus.Running, 3, 3, 1, 0, [], none⟩).state.retryCount ≤ 3 ∧
    retry (fun _ => some "e") 5 0 ⟨TaskStatus.Running, 3, 3, 1, 0, [], none⟩ =
      ⟨⟨TaskStatus.Running, 3, 3, 1, 0, [], none⟩, [],
        Except.error "exceeded maximum retry attempts"⟩ :=
  ⟨(retryCount_le_maxRetries (fun _ => some "e") 5 0 _ (by decide)).1,
   (retryCount_le_maxRetries (fun _ => some "e") 5 0 _ (by decide)).2.2.2 (by decide)⟩

/-- C5 counterexample: a task with the default `retryDelay` of one second
(one time unit), `retryCount = 1 < maxRetries = 3`, and a failing Execute.
The retry step sleeps exactly `retryDelay = 1` unit before re-running —
not the claimed exponential `2 ^ retryCount` units, which would be
`2 ^ 2 = 4` (reading `retryCount` after the increment) or `2 ^ 1 = 2`
(reading it before). -/
theorem retry_backoff_counterexample :
    (sleeps (retry (fun _ => some "boom") 10 1
      ⟨TaskStatus.Failed, 1, 3, 1, 0, [], some "boom"⟩).events).head? = some 1 ∧
    (1 : Nat) ≠ 2 ^ 2 ∧ (1 : Nat) ≠ 2 ^ 1 := by
  refine ⟨?_, by decide, by decide⟩
  decide

/-- C5 amended: on an attempt error while `retryCount < maxRetries`, the
retry machinery increments `retryCount` by one and sleeps the task's fixed
`retryDelay` (not an exponential `2 ^ retryCount` interval) before
re-running `executeTask` on the incremented state; once `retryCount` has
reached `maxRetries`, `retry` performs no sleep and no further invocation
and returns the retries-exceeded error, the task being left in `Failed`
with the last attempt's error recorded by the failing attempt that
precedes it. -/
theorem retry_fixed_delay_amended :
    ∀ (exec : Nat → Option String) (fuel calls : Nat) (t : TaskState) (e : String),
      (t.retryCount < t.maxRetries →
        retry exec fuel calls t =
          ⟨(executeTask exec fuel calls { t with retryCount := t.retryCount + 1 }).state,
           Event.incRetry (t.retryCount + 1) :: Event.sleep t.retryDelay ::
             (executeTask exec fuel calls { t with retryCount := t.retryCount + 1 }).events,
           (executeTask exec fuel calls { t with retryCount := t.retryCount + 1 }).result⟩) ∧
      (t.retryCount ≥ t.maxRetries →
        retry exec fuel calls t = ⟨t, [], Except.error "exceeded maximum retry attempts"⟩) ∧
      (t.retryCount ≥ t.maxRetries → exec calls = some e →
        executeTask exec (fuel + 1) calls t =
          ⟨{ t with status := TaskStatus.Failed, error := some e },
           [Event.callExecute calls, Event.store TaskStatus.Failed],
           Except.error "exceeded maximum retry attempts"⟩) := by
  intro exec fuel calls t e
  refine ⟨?_, ?_, ?_⟩
  · intro h
    have hn : ¬ t.retryCount ≥ t.maxRetries := not_le.mpr h
    simp [retry, hn]
  · intro h
    simp [retry, h]
  · intro h he
    simp [executeTask, he, h]

/-- C5 amended, witness: at a concrete non-exhausted state the retry step
records the increment and the fixed one-unit sleep; at a concrete
exhausted state with a failing attempt, `executeTask` stops in `Failed`
with the error recorded. -/
theorem retry_fixed_delay_amended_witness :
    retry (fun _ => some "x") 3 0 ⟨TaskStatus.Failed, 0, 3, 1, 0, [], some "x"⟩ =
      ⟨(executeTask (fun _ => some "x") 3 0
          ⟨TaskStatus.Failed, 1, 3, 1, 0, [], some "x"⟩).state,
       Event.incRetry 1 :: Event.sleep 1 ::
         (executeTask (fun _ => some "x") 3 0
           ⟨TaskStatus.Failed, 1, 3, 1, 0, [], some "x"⟩).events,
       (executeTask (fun _ => some "x") 3 0
         ⟨TaskStatus.Failed, 1, 3, 1, 0, [], some "x"⟩).result⟩ ∧
    executeTask (fun _ => some "x") 4 0 ⟨TaskStatus.Running, 3, 3, 1, 0, [], none⟩ =
      ⟨⟨TaskStatus.Failed, 3, 3, 1, 0, [], some "x"⟩,
       [Event.callExecute 0, Event.store TaskStatus.Failed],
       Except.error "exceeded maximum retry attempts"⟩ :=
  ⟨(retry_fixed_delay_amended (fun _ => some "x") 3 0
      ⟨TaskStatus.Failed, 0, 3, 1, 0, [], some "x"⟩ "x").1 (by decide),
   (retry_fixed_delay_amended (fun _ => some "x") 3 0
      ⟨TaskStatus.Running, 3, 3, 1, 0, [], none⟩ "x").2.2 (by decide) rfl⟩

/-- C1 counterexample: a task with `timeout = 5` whose single attempt
succeeds, under the schedule in which the deadline fires after the attempt
has invoked `Execute` but before its status store.  The `select` stores
`Timeout`, yet the abandoned goroutine's unconditional store of
`Completed` still happens afterwards and overwrites it: the trace contains
the `Timeout` store and the final status is `Completed`, not `Timeout`. -/
theorem timeout_not_terminal_counterexample :
    (executeWithTimeout (fun _ => none) 10
      ⟨TaskStatus.Running, 0, 3, 1, 5, [], none⟩ true 1).events =
      [Event.callExecute 0, Event.store TaskStatus.Timeout,
        Event.store TaskStatus.Completed] ∧
    Event.store TaskStatus.Timeout ∈
      (executeWithTimeout (fun _ => none) 10
        ⟨TaskStatus.Running, 0, 3, 1, 5, [], none⟩ true 1).events ∧
    (executeWithTimeout (fun _ => none) 10
      ⟨TaskStatus.Running, 0, 3, 1, 5, [], none⟩ true 1).state.status =
      TaskStatus.Completed := by
  refine ⟨?_, ?_, ?_⟩ <;> decide

/-- C1 amended: the status never re-enters `Pending` — no execution step
of `executeWithTimeout` (on either schedule) ever stores `Pending`, and
the attempt itself stores only `Failed` or `Completed`.  But `Timeout` is
not terminal: when the deadline fires, the final status is whatever the
abandoned attempt's remaining trace leaves on top of the `Timeout` store,
so whenever the abandoned attempt performs at least one store after the
deadline, the `Timeout` status is overwritten with `Completed` or
`Failed`. -/
theorem status_never_reenters_pending_amended :
    ∀ (exec : Nat → Option String) (fuel : Nat) (t : TaskState) (tf : Bool) (k : Nat),
      Event.store TaskStatus.Pending ∉ (executeWithTimeout exec fuel t tf k).events ∧
      (∀ e ∈ (executeTask exec fuel 0 t).events, execEvent e = true) ∧
      (tf = true →
        (executeWithTimeout exec fuel t tf k).state.status =
          lastStore TaskStatus.Timeout ((executeTask exec fuel 0 t).events.drop k)) ∧
      (tf = true →
        (∃ s, Event.store s ∈ (executeTask exec fuel 0 t).events.drop k) →
        (executeWithTimeout exec fuel t tf k).state.status = TaskStatus.Completed ∨
        (executeWithTimeout exec fuel t tf k).state.status = TaskStatus.Failed) := by
  intro exec fuel t tf k
  have hexec := executeTask_events_execEvent exec fuel 0 t
  have hstat : tf = true →
      (executeWithTimeout exec fuel t tf k).state.status =
        lastStore TaskStatus.Timeout ((executeTask exec fuel 0 t).events.drop k) := by
    intro htf
    simp only [executeWithTimeout, htf, if_pos]
    rw [lastStore_append]
    rfl
  refine ⟨?_, hexec, hstat, ?_⟩
  · cases tf with
    | false =>
      intro hmem
      have := hexec _ hmem
      simp [execEvent] at this
    | true =>
      simp only [executeWithTimeout, if_pos]
      intro hmem
      rcases List.mem_append.mp hmem with h | h
      · have := hexec _ (List.take_subset _ _ h)
        simp [execEvent] at this
      · rcases List.mem_cons.mp h with h2 | h2
        · simp at h2
        · have := hexec _ (List.drop_subset _ _ h2)
          simp [execEvent] at this
  · intro htf hs
    rw [hstat htf]
    exact lastStore_exec _ _
      (fun e he => hexec e (List.drop_subset _ _ he)) hs

/-- C1 amended, witness: on the concrete timed-out schedule, no `Pending`
store occurs, the final status equals the abandoned attempt's last store
on top of `Timeout`, and since the abandoned attempt does store after the
deadline, the final status is `Completed` or `Failed`. -/
theorem status_never_reenters_pending_amended_witness :
    Event.store TaskStatus.Pending ∉
      (executeWithTimeout (fun _ => none) 10
        ⟨TaskStatus.Running, 0, 3, 1, 5, [], none⟩ true 1).events ∧
    (executeWithTimeout (fun _ => none) 10
      ⟨TaskStatus.Running, 0, 3, 1, 5, [], none⟩ true 1).state.status =
      lastStore TaskStatus.Timeout
        ((executeTask (fun _ => none) 10 0
          ⟨TaskStatus.Running, 0, 3, 1, 5, [], none⟩).events.drop 1) ∧
    ((executeWithTimeout (fun _ => none) 10
        ⟨TaskStatus.Running, 0, 3, 1, 5, [], none⟩ true 1).state.status =
        TaskStatus.Completed ∨
      (executeWithTimeout (fun _ => none) 10
        ⟨TaskStatus.Running, 0, 3, 1, 5, [], none⟩ true 1).state.status =
        TaskStatus.Failed) :=
  ⟨(status_never_reenters_pending_amended (fun _ => none) 10
      ⟨TaskStatus.Running, 0, 3, 1, 5, [], none⟩ true 1).1,
   (status_never_reenters_pending_amended (fun _ => none) 10
      ⟨TaskStatus.Running, 0, 3, 1, 5, [], none⟩ true 1).2.2.1 rfl,
   (status_never_reenters_pending_amended (fun _ => none) 10
      ⟨TaskStatus.Running, 0, 3, 1, 5, [], none⟩ true 1).2.2.2 rfl
     ⟨TaskStatus.Completed, by decide⟩⟩

/-- The timeout wrapper records no dependency scan: its trace is the
attempt's trace with one `Timeout` store possibly interleaved. -/
theorem executeWithTimeout_checkDepsCount (exec : Nat → Option String)
    (fuel : Nat) (t : TaskState) (tf : Bool) (k : Nat) :
    checkDepsCount (executeWithTimeout exec fuel t tf k).events = 0 := by
  have hexec := executeTask_events_execEvent exec fuel 0 t
  cases tf with
  | false => simpa [executeWithTimeout] using checkDepsCount_of_execEvent _ hexec
  | true =>
    simp only [executeWithTimeout, if_pos]
    rw [checkDepsCount_append]
    have h1 : checkDepsCount ((executeTask exec fuel 0 t).events.take k) = 0 :=
      checkDepsCount_of_execEvent _ (fun e he => hexec e (List.take_subset _ _ he))
    have h2 : checkDepsCount ((executeTask exec fuel 0 t).events.drop k) = 0 :=
      checkDepsCount_of_execEvent _ (fun e he => hexec e (List.drop_subset _ _ he))
    have h3 : checkDepsCount (Event.store TaskStatus.Timeout ::
        (executeTask exec fuel 0 t).events.drop k) =
        checkDepsCount ((executeTask exec fuel 0 t).events.drop k) := by
      simp [checkDepsCount]
    omega

/-- C3: `Start` succeeds only from `Pending`: from any other status it
returns the invalid-state error without mutating the task, recording no
event and never invoking `Execute`.  From `Pending` it records
`StartTime`, first stores `Running`, and scans the dependencies exactly
once; if some dependency is not `Completed`, it stores `Failed` and
returns the dependency error without ever invoking `Execute`. -/
theorem start_pending_guard :
    ∀ (exec : Nat → Option String) (fuel : Nat) (tf : Bool) (k : Nat) (t : TaskState),
      (t.status ≠ TaskStatus.Pending →
        Start exec fuel tf k t =
          ⟨t, [], Except.error "task is not in pending status", false⟩) ∧
      (t.status = TaskStatus.Pending →
        (∃ pr ∈ t.dependencies, pr.2 ≠ TaskStatus.Completed) →
        (Start exec fuel tf k t).state.status = TaskStatus.Failed ∧
        executeCalls (Start exec fuel tf k t).events = 0 ∧
        (∃ d, (Start exec fuel tf k t).result =
          Except.error ("dependency task " ++ d ++ " is not completed")) ∧
        (Start exec fuel tf k t).startTimeRecorded = true) ∧
      (t.status = TaskStatus.Pending →
        (Start exec fuel tf k t).startTimeRecorded = true ∧
        (Start exec fuel tf k t).events.head? = some (Event.store TaskStatus.Running) ∧
        checkDepsCount (Start exec fuel tf k t).events = 1) := by
  intro exec fuel tf k t
  refine ⟨?_, ?_, ?_⟩
  · intro h
    simp [Start, h]
  · intro hp hdep
    obtain ⟨e, he⟩ := (checkDependencies_error_iff t.dependencies).1.mpr hdep
    obtain ⟨d, hd⟩ := (checkDependencies_error_iff t.dependencies).2 e he
    refine ⟨?_, ?_, ⟨d, ?_⟩, ?_⟩ <;> simp [Start, hp, he, executeCalls, hd, checkDepsCount]
  · intro hp
    cases hcd : checkDependencies t.dependencies with
    | error e =>
      refine ⟨?_, ?_, ?_⟩ <;> simp [Start, hp, hcd, checkDepsCount]
    | ok u =>
      by_cases ht : t.timeout > 0
      · have hcnt := executeWithTimeout_checkDepsCount exec fuel
          { t with status := TaskStatus.Running } tf k
        refine ⟨?_, ?_, ?_⟩ <;>
          simp [Start, hp, hcd, ht, checkDepsCount] <;>
          simpa [checkDepsCount] using hcnt
      · have hexec := executeTask_events_execEvent exec fuel 0
          { t with status := TaskStatus.Running }
        have hcnt := checkDepsCount_of_execEvent _ hexec
        refine ⟨?_, ?_, ?_⟩ <;>
          simp [Start, hp, hcd, ht, checkDepsCount] <;>
          simpa [checkDepsCount] using hcnt

/-- C3 witness: `Start` on a concrete pending task with an incomplete
dependency fails with the dependency error without invoking `Execute`,
after recording `StartTime` and scanning dependencies once; on a concrete
non-pending task it returns the invalid-state error unchanged. -/
theorem start_pending_guard_witness :
    ((Start (fun _ => none) 5 false 0
        ⟨TaskStatus.Pending, 0, 3, 1, 0, [("d1", TaskStatus.Running)], none⟩).state.status =
        TaskStatus.Failed ∧
      executeCalls (Start (fun _ => none) 5 false 0
        ⟨TaskStatus.Pending, 0, 3, 1, 0, [("d1", TaskStatus.Running)], none⟩).events = 0 ∧
      checkDepsCount (Start (fun _ => none) 5 false 0
        ⟨TaskStatus.Pending, 0, 3, 1, 0, [("d1", TaskStatus.Running)], none⟩).events = 1) ∧
    Start (fun _ => none) 5 false 0 ⟨TaskStatus.Completed, 0, 3, 1, 0, [], none⟩ =
      ⟨⟨TaskStatus.Completed, 0, 3, 1, 0, [], none⟩, [],
        Except.error "task is not in pending status", false⟩ :=
  ⟨⟨((start_pending_guard (fun _ => none) 5 false 0
        ⟨TaskStatus.Pending, 0, 3, 1, 0, [("d1", TaskStatus.Running)], none⟩).2.1 rfl
        ⟨("d1", TaskStatus.Running), by decide⟩).1,
    ((start_pending_guard (fun _ => none) 5 false 0
        ⟨TaskStatus.Pending, 0, 3, 1, 0, [("d1", TaskStatus.Running)], none⟩).2.1 rfl
        ⟨("d1", TaskStatus.Running), by decide⟩).2.1,
    ((start_pending_guard (fun _ => none) 5 false 0
        ⟨TaskStatus.Pending, 0, 3, 1, 0, [("d1", TaskStatus.Running)], none⟩).2.2 rfl).2.2⟩,
   (start_pending_guard (fun _ => none) 5 false 0
      ⟨TaskStatus.Completed, 0, 3, 1, 0, [], none⟩).1 (by decide)⟩

end TaskM
